import Mathlib

/-!
Verification of `arm_sin_f32.c` (CMSIS DSP fast sine, table lookup plus cubic
interpolation).  The C routine works on IEEE-754 binary32 values; we embed it
shallowly: a binary32 value is represented by the exact rational it denotes,
and every arithmetic operation of the source is followed by `roundF32`, exact
round-to-nearest (ties to even) at 24 bits of precision with the binary32
exponent floor.  Overflow to infinity and signed zero are not modelled; every
value reached in the development stays far below the binary32 overflow
threshold, and no sign-of-zero distinction affects any claim.  Casts between
float and the 32-bit integer types return `Option`: `none` models C undefined
behaviour (out-of-range conversion), as does an out-of-bounds table read.
-/

set_option maxRecDepth 40000
set_option maxHeartbeats 4000000

attribute [local semireducible] Rat.mul Rat.add Rat.sub Rat.inv

/-! ### Binary32 rounding model -/

/-- Number of binary digits of `n`, fuel-driven so that the kernel can
evaluate it; `bitsAux fuel n` is correct whenever `n ≤ fuel`. -/
def bitsAux : ℕ → ℕ → ℕ
  | 0, _ => 0
  | fuel + 1, n => if n = 0 then 0 else bitsAux fuel (n / 2) + 1

/-- Binary search for the exponent: under the invariants `2 ^ lo ≤ n`,
`n < 2 ^ hi` and `hi ≤ lo + 2 ^ fuel`, returns the `b` with
`2 ^ b ≤ n < 2 ^ (b + 1)`. -/
def bitsGo : ℕ → ℕ → ℕ → ℕ → ℕ
  | 0, lo, _, _ => lo
  | fuel + 1, lo, hi, n =>
    if hi ≤ lo + 1 then lo
    else
      let m := (lo + hi) / 2
      if 2 ^ m ≤ n then bitsGo fuel m hi n else bitsGo fuel lo m n

/-- Number of binary digits of `n` (`0` for `n = 0`): a fast binary-search
path for `n < 2 ^ 192`, and the fuel-driven scan beyond. -/
def bits (n : ℕ) : ℕ :=
  if n = 0 then 0
  else if n < 2 ^ 192 then bitsGo 9 0 192 n + 1 else bitsAux n n

/-- Integer power of two as a rational, for arbitrary integer exponent. -/
def pow2 (e : ℤ) : ℚ := if 0 ≤ e then ((2 ^ e.toNat : ℕ) : ℚ) else 1 / ((2 ^ (-e).toNat : ℕ) : ℚ)

/-- Round a rational to an integer, half to even. -/
def rhe (q : ℚ) : ℤ :=
  let f := ⌊q⌋
  let r := q - f
  if r < 1 / 2 then f else if 1 / 2 < r then f + 1 else if 2 ∣ f then f else f + 1

/-- Binade exponent: for `0 < a`, the unique `e` with `2 ^ e ≤ a < 2 ^ (e + 1)`. -/
def ilog2Q (a : ℚ) : ℤ :=
  let e0 : ℤ := (bits a.num.toNat : ℤ) - (bits a.den : ℤ)
  if a < pow2 e0 then e0 - 1 else e0

/-- Exact IEEE-754 binary32 rounding (round to nearest, ties to even), as a
map on the rationals.  Subnormals are handled by the exponent floor `-126`;
overflow is not modelled (no value in this development comes near `2 ^ 128`). -/
def roundF32 (q : ℚ) : ℚ :=
  if q = 0 then 0
  else
    let a := |q|
    let e := max (ilog2Q a) (-126)
    let k := 23 - e
    let m := rhe (a * pow2 k)
    (if q < 0 then -1 else 1) * (m : ℚ) * pow2 (-k)

example : roundF32 (1 / 3) = 11184811 / 33554432 := by decide
example : roundF32 (166666667 / 1000000000) = 11184811 / 67108864 := by decide
example : roundF32 (159154943092 / 1000000000000) = 10680707 / 67108864 := by decide
example : roundF32 (1 - 1 / 2 ^ 33) = 1 := by decide
example : roundF32 (-(1 / 2 ^ 30)) = -(1 / 2 ^ 30) := by decide

/-! ### Source embedding: `arm_sin_f32.c` -/

/-- The 259 decimal literals of `static const float32_t sinTable[259]`,
read as exact rationals. -/
def sinTableRaw : List ℚ := [
  -(24541229009628296 / 1000000000000000000), 0 / 1000000000000000000, 24541229009628296 / 1000000000000000000,
  49067676067352295 / 1000000000000000000, 73564566671848297 / 1000000000000000000, 98017141222953796 / 1000000000000000000,
  122410677373409270 / 1000000000000000000, 146730467677116390 / 1000000000000000000, 170961886644363400 / 1000000000000000000,
  195090323686599730 / 1000000000000000000, 219101235270500180 / 1000000000000000000, 242980182170867920 / 1000000000000000000,
  266712754964828490 / 1000000000000000000, 290284663438797000 / 1000000000000000000, 313681751489639280 / 1000000000000000000,
  336889863014221190 / 1000000000000000000, 359895050525665280 / 1000000000000000000, 382683426141738890 / 1000000000000000000,
  405241310596466060 / 1000000000000000000, 427555084228515630 / 1000000000000000000, 449611335992813110 / 1000000000000000000,
  471396744251251220 / 1000000000000000000, 492898195981979370 / 1000000000000000000, 514102756977081300 / 1000000000000000000,
  534997642040252690 / 1000000000000000000, 555570244789123540 / 1000000000000000000, 575808167457580570 / 1000000000000000000,
  595699310302734380 / 1000000000000000000, 615231573581695560 / 1000000000000000000, 634393274784088130 / 1000000000000000000,
  653172850608825680 / 1000000000000000000, 671558976173400880 / 1000000000000000000, 689540565013885500 / 1000000000000000000,
  707106769084930420 / 1000000000000000000, 724247097969055180 / 1000000000000000000, 740951120853424070 / 1000000000000000000,
  757208824157714840 / 1000000000000000000, 773010432720184330 / 1000000000000000000, 788346409797668460 / 1000000000000000000,
  803207516670227050 / 1000000000000000000, 817584812641143800 / 1000000000000000000, 831469595432281490 / 1000000000000000000,
  844853579998016360 / 1000000000000000000, 857728600502014160 / 1000000000000000000, 870086967945098880 / 1000000000000000000,
  881921291351318360 / 1000000000000000000, 893224298954010010 / 1000000000000000000, 903989315032958980 / 1000000000000000000,
  914209783077239990 / 1000000000000000000, 923879504203796390 / 1000000000000000000, 932992815971374510 / 1000000000000000000,
  941544055938720700 / 1000000000000000000, 949528157711029050 / 1000000000000000000, 956940352916717530 / 1000000000000000000,
  963776051998138430 / 1000000000000000000, 970031261444091800 / 1000000000000000000, 975702106952667240 / 1000000000000000000,
  980785250663757320 / 1000000000000000000, 985277652740478520 / 1000000000000000000, 989176511764526370 / 1000000000000000000,
  992479562759399410 / 1000000000000000000, 995184719562530520 / 1000000000000000000, 997290432453155520 / 1000000000000000000,
  998795449733734130 / 1000000000000000000, 999698817729949950 / 1000000000000000000, 1000000000000000000 / 1000000000000000000,
  999698817729949950 / 1000000000000000000, 998795449733734130 / 1000000000000000000, 997290432453155520 / 1000000000000000000,
  995184719562530520 / 1000000000000000000, 992479562759399410 / 1000000000000000000, 989176511764526370 / 1000000000000000000,
  985277652740478520 / 1000000000000000000, 980785250663757320 / 1000000000000000000, 975702106952667240 / 1000000000000000000,
  970031261444091800 / 1000000000000000000, 963776051998138430 / 1000000000000000000, 956940352916717530 / 1000000000000000000,
  949528157711029050 / 1000000000000000000, 941544055938720700 / 1000000000000000000, 932992815971374510 / 1000000000000000000,
  923879504203796390 / 1000000000000000000, 914209783077239990 / 1000000000000000000, 903989315032958980 / 1000000000000000000,
  893224298954010010 / 1000000000000000000, 881921291351318360 / 1000000000000000000, 870086967945098880 / 1000000000000000000,
  857728600502014160 / 1000000000000000000, 844853579998016360 / 1000000000000000000, 831469595432281490 / 1000000000000000000,
  817584812641143800 / 1000000000000000000, 803207516670227050 / 1000000000000000000, 788346409797668460 / 1000000000000000000,
  773010432720184330 / 1000000000000000000, 757208824157714840 / 1000000000000000000, 740951120853424070 / 1000000000000000000,
  724247097969055180 / 1000000000000000000, 707106769084930420 / 1000000000000000000, 689540565013885500 / 1000000000000000000,
  671558976173400880 / 1000000000000000000, 653172850608825680 / 1000000000000000000, 634393274784088130 / 1000000000000000000,
  615231573581695560 / 1000000000000000000, 595699310302734380 / 1000000000000000000, 575808167457580570 / 1000000000000000000,
  555570244789123540 / 1000000000000000000, 534997642040252690 / 1000000000000000000, 514102756977081300 / 1000000000000000000,
  492898195981979370 / 1000000000000000000, 471396744251251220 / 1000000000000000000, 449611335992813110 / 1000000000000000000,
  427555084228515630 / 1000000000000000000, 405241310596466060 / 1000000000000000000, 382683426141738890 / 1000000000000000000,
  359895050525665280 / 1000000000000000000, 336889863014221190 / 1000000000000000000, 313681751489639280 / 1000000000000000000,
  290284663438797000 / 1000000000000000000, 266712754964828490 / 1000000000000000000, 242980182170867920 / 1000000000000000000,
  219101235270500180 / 1000000000000000000, 195090323686599730 / 1000000000000000000, 170961886644363400 / 1000000000000000000,
  146730467677116390 / 1000000000000000000, 122410677373409270 / 1000000000000000000, 98017141222953796 / 1000000000000000000,
  73564566671848297 / 1000000000000000000, 49067676067352295 / 1000000000000000000, 24541229009628296 / 1000000000000000000,
  122 / 1000000000000000000, -(24541229009628296 / 1000000000000000000), -(49067676067352295 / 1000000000000000000),
  -(73564566671848297 / 1000000000000000000), -(98017141222953796 / 1000000000000000000), -(122410677373409270 / 1000000000000000000),
  -(146730467677116390 / 1000000000000000000), -(170961886644363400 / 1000000000000000000), -(195090323686599730 / 1000000000000000000),
  -(219101235270500180 / 1000000000000000000), -(242980182170867920 / 1000000000000000000), -(266712754964828490 / 1000000000000000000),
  -(290284663438797000 / 1000000000000000000), -(313681751489639280 / 1000000000000000000), -(336889863014221190 / 1000000000000000000),
  -(359895050525665280 / 1000000000000000000), -(382683426141738890 / 1000000000000000000), -(405241310596466060 / 1000000000000000000),
  -(427555084228515630 / 1000000000000000000), -(449611335992813110 / 1000000000000000000), -(471396744251251220 / 1000000000000000000),
  -(492898195981979370 / 1000000000000000000), -(514102756977081300 / 1000000000000000000), -(534997642040252690 / 1000000000000000000),
  -(555570244789123540 / 1000000000000000000), -(575808167457580570 / 1000000000000000000), -(595699310302734380 / 1000000000000000000),
  -(615231573581695560 / 1000000000000000000), -(634393274784088130 / 1000000000000000000), -(653172850608825680 / 1000000000000000000),
  -(671558976173400880 / 1000000000000000000), -(689540565013885500 / 1000000000000000000), -(707106769084930420 / 1000000000000000000),
  -(724247097969055180 / 1000000000000000000), -(740951120853424070 / 1000000000000000000), -(757208824157714840 / 1000000000000000000),
  -(773010432720184330 / 1000000000000000000), -(788346409797668460 / 1000000000000000000), -(803207516670227050 / 1000000000000000000),
  -(817584812641143800 / 1000000000000000000), -(831469595432281490 / 1000000000000000000), -(844853579998016360 / 1000000000000000000),
  -(857728600502014160 / 1000000000000000000), -(870086967945098880 / 1000000000000000000), -(881921291351318360 / 1000000000000000000),
  -(893224298954010010 / 1000000000000000000), -(903989315032958980 / 1000000000000000000), -(914209783077239990 / 1000000000000000000),
  -(923879504203796390 / 1000000000000000000), -(932992815971374510 / 1000000000000000000), -(941544055938720700 / 1000000000000000000),
  -(949528157711029050 / 1000000000000000000), -(956940352916717530 / 1000000000000000000), -(963776051998138430 / 1000000000000000000),
  -(970031261444091800 / 1000000000000000000), -(975702106952667240 / 1000000000000000000), -(980785250663757320 / 1000000000000000000),
  -(985277652740478520 / 1000000000000000000), -(989176511764526370 / 1000000000000000000), -(992479562759399410 / 1000000000000000000),
  -(995184719562530520 / 1000000000000000000), -(997290432453155520 / 1000000000000000000), -(998795449733734130 / 1000000000000000000),
  -(999698817729949950 / 1000000000000000000), -(1000000000000000000 / 1000000000000000000), -(999698817729949950 / 1000000000000000000),
  -(998795449733734130 / 1000000000000000000), -(997290432453155520 / 1000000000000000000), -(995184719562530520 / 1000000000000000000),
  -(992479562759399410 / 1000000000000000000), -(989176511764526370 / 1000000000000000000), -(985277652740478520 / 1000000000000000000),
  -(980785250663757320 / 1000000000000000000), -(975702106952667240 / 1000000000000000000), -(970031261444091800 / 1000000000000000000),
  -(963776051998138430 / 1000000000000000000), -(956940352916717530 / 1000000000000000000), -(949528157711029050 / 1000000000000000000),
  -(941544055938720700 / 1000000000000000000), -(932992815971374510 / 1000000000000000000), -(923879504203796390 / 1000000000000000000),
  -(914209783077239990 / 1000000000000000000), -(903989315032958980 / 1000000000000000000), -(893224298954010010 / 1000000000000000000),
  -(881921291351318360 / 1000000000000000000), -(870086967945098880 / 1000000000000000000), -(857728600502014160 / 1000000000000000000),
  -(844853579998016360 / 1000000000000000000), -(831469595432281490 / 1000000000000000000), -(817584812641143800 / 1000000000000000000),
  -(803207516670227050 / 1000000000000000000), -(788346409797668460 / 1000000000000000000), -(773010432720184330 / 1000000000000000000),
  -(757208824157714840 / 1000000000000000000), -(740951120853424070 / 1000000000000000000), -(724247097969055180 / 1000000000000000000),
  -(707106769084930420 / 1000000000000000000), -(689540565013885500 / 1000000000000000000), -(671558976173400880 / 1000000000000000000),
  -(653172850608825680 / 1000000000000000000), -(634393274784088130 / 1000000000000000000), -(615231573581695560 / 1000000000000000000),
  -(595699310302734380 / 1000000000000000000), -(575808167457580570 / 1000000000000000000), -(555570244789123540 / 1000000000000000000),
  -(534997642040252690 / 1000000000000000000), -(514102756977081300 / 1000000000000000000), -(492898195981979370 / 1000000000000000000),
  -(471396744251251220 / 1000000000000000000), -(449611335992813110 / 1000000000000000000), -(427555084228515630 / 1000000000000000000),
  -(405241310596466060 / 1000000000000000000), -(382683426141738890 / 1000000000000000000), -(359895050525665280 / 1000000000000000000),
  -(336889863014221190 / 1000000000000000000), -(313681751489639280 / 1000000000000000000), -(290284663438797000 / 1000000000000000000),
  -(266712754964828490 / 1000000000000000000), -(242980182170867920 / 1000000000000000000), -(219101235270500180 / 1000000000000000000),
  -(195090323686599730 / 1000000000000000000), -(170961886644363400 / 1000000000000000000), -(146730467677116390 / 1000000000000000000),
  -(122410677373409270 / 1000000000000000000), -(98017141222953796 / 1000000000000000000), -(73564566671848297 / 1000000000000000000),
  -(49067676067352295 / 1000000000000000000), -(24541229009628296 / 1000000000000000000), -(245 / 1000000000000000000),
  24541229009628296 / 1000000000000000000]

/-- The table as stored: each literal converted to binary32 by the C
compiler, i.e. rounded. -/
def sinTable : List ℚ := sinTableRaw.map roundF32

/-- `TABLE_SIZE` from `arm_math.h`. -/
def TABLE_SIZE : ℕ := 256

/-- The binary32 constant `0.159154943092f` (the literal of `in = x * 0.159154943092f`). -/
def cInv2Pi : ℚ := roundF32 (159154943092 / 1000000000000)

/-- The binary32 constant `0.5f`. -/
def cHalf : ℚ := roundF32 (5 / 10)

/-- The binary32 constant `0.166666667f`. -/
def cSixth : ℚ := roundF32 (166666667 / 1000000000)

/-- The binary32 constant `0.3333333333333f`. -/
def cThird : ℚ := roundF32 (3333333333333 / 10000000000000)

/-- C float-to-integer conversion truncates toward zero. -/
def truncQ (q : ℚ) : ℤ := if 0 ≤ q then ⌊q⌋ else -⌊-q⌋

/-- `(int32_t)` conversion of a float value; out of range is C undefined
behaviour, modelled as `none`. -/
def toInt32 (q : ℚ) : Option ℤ :=
  let t := truncQ q
  if -(2 ^ 31) ≤ t ∧ t < 2 ^ 31 then some t else none

/-- `(uint32_t)` conversion of a float value followed by storing the result
in the `int32_t` variable `index` (two's-complement wrap, the behaviour of the
target compilers); a float value outside `(-1, 2^32)` is undefined behaviour,
modelled as `none`. -/
def toUInt32AsInt32 (q : ℚ) : Option ℤ :=
  let t := truncQ q
  if 0 ≤ t ∧ t < 2 ^ 32 then some (if t < 2 ^ 31 then t else t - 2 ^ 32) else none

/-- binary32 multiplication. -/
def fmul (a b : ℚ) : ℚ := roundF32 (a * b)

/-- binary32 addition. -/
def fadd (a b : ℚ) : ℚ := roundF32 (a + b)

/-- binary32 subtraction. -/
def fsub (a b : ℚ) : ℚ := roundF32 (a - b)

/-- `(float32_t)` conversion of an integer. -/
def i2f (n : ℤ) : ℚ := roundF32 (n : ℚ)

/-- `in = x * 0.159154943092f`: the input scaled by the inverse period. -/
def sin_u (x : ℚ) : ℚ := fmul x cInv2Pi

/-- `n = (int32_t) in; if (x < 0.0f) n = n - 1;`: the period count.
The second condition models that decrementing `INT32_MIN` overflows. -/
def sin_n (x : ℚ) : Option ℤ :=
  match toInt32 (sin_u x) with
  | none => none
  | some n0 =>
    let n := if x < 0 then n0 - 1 else n0
    if -(2 ^ 31) ≤ n then some n else none

/-- `in = in - (float32_t) n`: the input folded into one period. -/
def sin_in (x : ℚ) : Option ℚ := (sin_n x).map (fun n => fsub (sin_u x) (i2f n))

/-- `tableSize * in` (with `tableSize` converted to float, exactly 256). -/
def sin_pos (x : ℚ) : Option ℚ := (sin_in x).map (fun v => fmul 256 v)

/-- `index = (uint32_t) (tableSize * in)`, stored into the `int32_t` variable. -/
def sin_index0 (x : ℚ) : Option ℤ := (sin_pos x).bind toUInt32AsInt32

/-- `fract = ((float32_t) tableSize * in) - (float32_t) index`, computed from
the unclamped index, exactly as in the source. -/
def sin_fract (x : ℚ) : Option ℚ :=
  match sin_pos x, sin_index0 x with
  | some p, some i => some (fsub p (i2f i))
  | _, _ => none

/-- `if (index < 0) index = 0; else if (index > 256) index = 256;` -/
def clampIndex (i : ℤ) : ℤ := if i < 0 then 0 else if i > 256 then 256 else i

/-- The clamped table index used for the fetches. -/
def sin_index (x : ℚ) : Option ℤ := (sin_index0 x).map clampIndex

/-- The cubic interpolation weights, computed by the exact multiply-add
sequence of the source, one binary32 rounding per operation:
`fractsq = fract*fract; fractby2 = fract*0.5f; fractby6 = fract*0.166666667f;
fractby3 = fract*0.3333333333333f; fractsqby2 = fractsq*0.5f;
frby2xfrsq = fractby2*fractsq; frby6xfrsq = fractby6*fractsq;
oneminusfractby2 = 1.0f - fractby2; wb = fractsqby2 - fractby3;
wc = fractsqby2 + fract; wa = wb - frby6xfrsq; wb = frby2xfrsq - fractsq;
wc = wc - frby2xfrsq; wd = frby6xfrsq - fractby6; wb = wb + oneminusfractby2`. -/
def sinWeights (fract : ℚ) : ℚ × ℚ × ℚ × ℚ :=
  let fractsq := fmul fract fract
  let fractby2 := fmul fract cHalf
  let fractby6 := fmul fract cSixth
  let fractby3 := fmul fract cThird
  let fractsqby2 := fmul fractsq cHalf
  let frby2xfrsq := fmul fractby2 fractsq
  let frby6xfrsq := fmul fractby6 fractsq
  let oneminusfractby2 := fsub 1 fractby2
  let wb1 := fsub fractsqby2 fractby3
  let wc1 := fadd fractsqby2 fract
  let wa := fsub wb1 frby6xfrsq
  let wb2 := fsub frby2xfrsq fractsq
  let wc := fsub wc1 frby2xfrsq
  let wd := fsub frby6xfrsq fractby6
  let wb := fadd wb2 oneminusfractby2
  (wa, wb, wc, wd)

/-- The four fetches `tablePtr[0..3]` at the clamped index, followed by the
weighted sum `sinVal = (wa*a + b*wb) + (c*wc + d*wd)` in the association of
the source.  A fetch outside the 259 entries is undefined behaviour (`none`). -/
def interp (i : ℤ) (fr : ℚ) : Option ℚ :=
  if i < 0 then none
  else
    match sinTable.get? i.toNat, sinTable.get? (i.toNat + 1),
        sinTable.get? (i.toNat + 2), sinTable.get? (i.toNat + 3) with
    | some a, some b, some c, some d =>
      let w := sinWeights fr
      some (fadd (fadd (fmul w.1 a) (fmul b w.2.1)) (fadd (fmul c w.2.2.1) (fmul d w.2.2.2)))
    | _, _, _, _ => none

/-- The whole of `arm_sin_f32`: `x` is the exact value of the binary32
argument; the result is the exact value of the returned binary32, or `none`
when an execution step is undefined behaviour. -/
def arm_sin_f32 (x : ℚ) : Option ℚ :=
  match sin_index x, sin_fract x with
  | some i, some fr => interp i fr
  | _, _ => none


/-! ### Exact-arithmetic reading of the weight computation (for the
refinement claim about the cubic basis polynomials) -/

/-- `wa` as computed by the source's multiply-add sequence, read in exact
arithmetic: `wa = (fractsq*0.5f - fract*0.3333333333333f) - (fract*0.166666667f)*fractsq`. -/
def codeWaExact (f : ℚ) : ℚ := (f * f * cHalf - f * cThird) - f * cSixth * (f * f)

/-- `wb` as computed by the source's multiply-add sequence, read in exact
arithmetic: `wb = ((fract*0.5f)*fractsq - fractsq) + (1.0f - fract*0.5f)`. -/
def codeWbExact (f : ℚ) : ℚ := ((f * cHalf) * (f * f) - f * f) + (1 - f * cHalf)

/-- `wc` as computed by the source's multiply-add sequence, read in exact
arithmetic: `wc = ((fractsq*0.5f) + fract) - (fract*0.5f)*fractsq`. -/
def codeWcExact (f : ℚ) : ℚ := ((f * f) * cHalf + f) - (f * cHalf) * (f * f)

/-- `wd` as computed by the source's multiply-add sequence, read in exact
arithmetic: `wd = (fract*0.166666667f)*fractsq - fract*0.166666667f`. -/
def codeWdExact (f : ℚ) : ℚ := (f * cSixth) * (f * f) - f * cSixth

/-- Modelled from the spec: `wa = -(1/6)*fract^3 + (1/2)*fract^2 - (1/3)*fract`. -/
def specWa (f : ℚ) : ℚ := -(1 / 6) * f ^ 3 + (1 / 2) * f ^ 2 - (1 / 3) * f

/-- Modelled from the spec: `wb = (1/2)*fract^3 - fract^2 - (1/2)*fract + 1`. -/
def specWb (f : ℚ) : ℚ := (1 / 2) * f ^ 3 - f ^ 2 - (1 / 2) * f + 1

/-- Modelled from the spec: `wc = -(1/2)*fract^3 + (1/2)*fract^2 + fract`. -/
def specWc (f : ℚ) : ℚ := -(1 / 2) * f ^ 3 + (1 / 2) * f ^ 2 + f

/-- Modelled from the spec: `wd = (1/6)*fract^3 - (1/6)*fract`. -/
def specWd (f : ℚ) : ℚ := (1 / 6) * f ^ 3 - (1 / 6) * f

/-! ### Claim theorems: table invariants, known values, and the reachable
out-of-bounds fetch at clamped index 256 -/

/-- C5: the 259-entry table satisfies the wraparound invariants
`table[0] == table[256]` and `table[258] == table[2]` (as equalities of the
stored binary32 constants); the table is a fixed constant list, and
`arm_sin_f32` is a pure function that only reads it. -/
theorem C5_table_wraparound :
    sinTable.length = 259 ∧
    sinTable.get? 0 = sinTable.get? 256 ∧ sinTable.get? 258 = sinTable.get? 2 := by
  decide

/-- C10: every one of the 259 table entries lies in `[-1, 1]`, and the
extremes are attained exactly at entry 65 (value `1`) and entry 193
(value `-1`). -/
theorem C10_table_range :
    sinTable.length = 259 ∧
    (∀ j, j < 259 → |(sinTable.get? j).getD 0| ≤ 1) ∧
    (∀ j, j < 259 → ((sinTable.get? j).getD 0 = 1 ↔ j = 65)) ∧
    (∀ j, j < 259 → ((sinTable.get? j).getD 0 = -1 ↔ j = 193)) := by
  decide

/-- Witness for C10 at the concrete entry 65. -/
theorem C10_table_range_witness :
    |(sinTable.get? 65).getD 0| ≤ 1 ∧ ((sinTable.get? 65).getD 0 = 1 ↔ 65 = 65) :=
  ⟨C10_table_range.2.1 65 (by decide), C10_table_range.2.2.1 65 (by decide)⟩

/-- C1: the clamped index 256 is reachable (the input `-2^-30` produces it),
the clamp keeps it at 256, and the fourth fetch offset `256 + 3 = 259` is
outside the table: `sinTable.get? 259 = none`, an out-of-bounds read.  This
contradicts the claim that every fetch stays within `[0, 258]`. -/
theorem C1_clamped_index_256_fetches_entry_259 :
    sin_index (-(1 / 2 ^ 30)) = some 256 ∧ clampIndex 256 = 256 ∧
    sinTable.get? (256 + 3) = none ∧ sinTable.length = 259 := by
  decide

/-- C2: `arm_sin_f32` is not total over the finite floats: at the finite
input `-2^-30` the fold lands on exactly `1.0`, the clamped index is 256 and
the fourth table access reads entry 259, one past the table, which is
undefined behaviour (`none` in this model). -/
theorem C2_not_total_at_neg_2_pow_30 : arm_sin_f32 (-(1 / 2 ^ 30)) = none := by
  decide

/-- C8: odd symmetry breaks down at `x = 2^-30`: the positive side returns a
value but the negated input hits the out-of-bounds table read (undefined
behaviour), so `arm_sin_f32 (-x) ≈ -arm_sin_f32 x` fails there. -/
theorem C8_oddness_fails_at_2_pow_30 :
    arm_sin_f32 (1 / 2 ^ 30) = some (8388607 / 9007199254740992) ∧
    arm_sin_f32 (-(1 / 2 ^ 30)) = none := by
  decide

/-- C3 counterexample: the folded position `in` is not always in `[0, 1)`:
at the finite input `-2^-30` the computation yields exactly `in = 1`. -/
theorem C3_counterexample_fold_hits_one :
    ¬(∀ x v, sin_in x = some v → 0 ≤ v ∧ v < 1) := by
  intro h
  have hv := h (-(1 / 2 ^ 30)) 1 (by decide)
  exact absurd hv.2 (by decide)

/-- C6: at the five listed points (inputs converted to binary32), the result
is within `1e-4` of the expected sine value. -/
theorem C6_known_values :
    (∃ y, arm_sin_f32 (roundF32 0) = some y ∧ |y - 0| ≤ 1 / 10000) ∧
    (∃ y, arm_sin_f32 (roundF32 (15707963 / 10000000)) = some y ∧ |y - 1| ≤ 1 / 10000) ∧
    (∃ y, arm_sin_f32 (roundF32 (314159265 / 100000000)) = some y ∧ |y - 0| ≤ 1 / 10000) ∧
    (∃ y, arm_sin_f32 (roundF32 (471238898 / 100000000)) = some y ∧ |y - (-1)| ≤ 1 / 10000) ∧
    (∃ y, arm_sin_f32 (roundF32 (-(15707963 / 10000000))) = some y ∧ |y - (-1)| ≤ 1 / 10000) := by
  refine ⟨⟨0, by decide, by decide⟩, ⟨1, by decide, by decide⟩,
    ⟨9218059 / 75557863725914323419136, by decide, by decide⟩,
    ⟨-1, by decide, by decide⟩, ⟨-1, by decide, by decide⟩⟩

/-- C4 counterexample: the multiply-add sequence does not reproduce the
specified `wa` polynomial exactly; at `fract = 1` the specified `wa` is `0`
but the code's exact-arithmetic `wa` is `0.5 - 0.3333333333333f - 0.166666667f ≠ 0`. -/
theorem C4_wa_differs_at_one : codeWaExact 1 ≠ specWa 1 := by decide

/-- C4 (amended): `wb` and `wc` are exactly the specified basis polynomials;
`wa` and `wd` are the basis polynomials with the exact coefficients `1/6`
and `1/3` replaced by the binary32 constants `0.166666667f` and
`0.3333333333333f` used by the source. -/
theorem C4_weights_polynomials : ∀ f : ℚ,
    codeWbExact f = specWb f ∧ codeWcExact f = specWc f ∧
    codeWaExact f = -cSixth * f ^ 3 + (1 / 2) * f ^ 2 - cThird * f ∧
    codeWdExact f = cSixth * f ^ 3 - cSixth * f := by
  intro f
  have h2 : cHalf = 1 / 2 := by decide
  refine ⟨?_, ?_, ?_, ?_⟩ <;>
    simp only [codeWbExact, codeWcExact, codeWaExact, codeWdExact, specWb, specWc, h2] <;>
    ring

/-! ### Elementary facts about the rounding model -/

lemma bitsAux_zero (fuel : ℕ) : bitsAux fuel 0 = 0 := by
  cases fuel <;> simp [bitsAux]

lemma bitsAux_spec : ∀ fuel n : ℕ, n ≤ fuel → n ≠ 0 →
    2 ^ bitsAux fuel n ≤ 2 * n ∧ n < 2 ^ bitsAux fuel n := by
  intro fuel
  induction fuel with
  | zero => intro n hn h0; omega
  | succ f ih =>
    intro n hn h0
    have hrec : bitsAux (f + 1) n = bitsAux f (n / 2) + 1 := by
      simp [bitsAux, h0]
    rcases Nat.lt_or_ge n 2 with h2 | h2
    · have hn1 : n = 1 := by omega
      subst hn1
      rw [hrec]
      simp [bitsAux_zero]
    · have hhalf : n / 2 ≠ 0 := by omega
      have hle : n / 2 ≤ f := by omega
      obtain ⟨ih1, ih2⟩ := ih (n / 2) hle hhalf
      rw [hrec, pow_succ]
      omega

lemma bitsGo_spec : ∀ fuel lo hi n : ℕ, 2 ^ lo ≤ n → n < 2 ^ hi →
    hi ≤ lo + 2 ^ fuel →
    2 ^ bitsGo fuel lo hi n ≤ n ∧ n < 2 ^ (bitsGo fuel lo hi n + 1) := by
  intro fuel
  induction fuel with
  | zero =>
    intro lo hi n h1 h2 h3
    have hlh : lo < hi := by
      by_contra hc
      push_neg at hc
      have := Nat.pow_le_pow_right (by norm_num : 0 < 2) hc
      omega
    have hhi : hi = lo + 1 := by omega
    subst hhi
    exact ⟨h1, by simpa using h2⟩
  | succ f ih =>
    intro lo hi n h1 h2 h3
    have hlh : lo < hi := by
      by_contra hc
      push_neg at hc
      have := Nat.pow_le_pow_right (by norm_num : 0 < 2) hc
      omega
    have hm2 : 2 ^ f + 2 ^ f = 2 ^ (f + 1) := by
      rw [pow_succ]
      omega
    simp only [bitsGo]
    split_ifs with hsmall hcmp
    · have hhi : hi = lo + 1 := by omega
      subst hhi
      exact ⟨h1, by simpa using h2⟩
    · exact ih ((lo + hi) / 2) hi n hcmp h2 (by omega)
    · exact ih lo ((lo + hi) / 2) n h1 (by omega) (by omega)

lemma bits_spec (n : ℕ) (h0 : n ≠ 0) : 2 ^ bits n ≤ 2 * n ∧ n < 2 ^ bits n := by
  rw [bits, if_neg h0]
  split_ifs with hsz
  · have h1 : 2 ^ 0 ≤ n := by omega
    obtain ⟨g1, g2⟩ := bitsGo_spec 9 0 192 n h1 hsz (by norm_num)
    constructor
    · calc 2 ^ (bitsGo 9 0 192 n + 1) = 2 * 2 ^ bitsGo 9 0 192 n := by
            rw [pow_succ]
            ring
        _ ≤ 2 * n := by omega
    · exact g2
  · exact bitsAux_spec n n le_rfl h0

lemma pow2_eq_zpow (e : ℤ) : pow2 e = (2 : ℚ) ^ e := by
  rw [pow2]
  split_ifs with h
  · rw [show ((2 ^ e.toNat : ℕ) : ℚ) = (2 : ℚ) ^ e.toNat by push_cast; ring]
    rw [← zpow_natCast, Int.toNat_of_nonneg h]
  · push_neg at h
    have he : e = -(((-e).toNat : ℕ) : ℤ) := by omega
    rw [show ((2 ^ (-e).toNat : ℕ) : ℚ) = (2 : ℚ) ^ (-e).toNat by push_cast; ring]
    rw [one_div, ← zpow_natCast, ← zpow_neg, ← he]

lemma pow2_pos (e : ℤ) : 0 < pow2 e := by
  rw [pow2_eq_zpow]; positivity

lemma pow2_mono {e f : ℤ} (h : e ≤ f) : pow2 e ≤ pow2 f := by
  rw [pow2_eq_zpow, pow2_eq_zpow]
  exact zpow_le_zpow_right₀ one_le_two h

lemma pow2_add (e f : ℤ) : pow2 (e + f) = pow2 e * pow2 f := by
  rw [pow2_eq_zpow, pow2_eq_zpow, pow2_eq_zpow]
  exact zpow_add₀ two_ne_zero e f

lemma pow2_zero : pow2 0 = 1 := by
  rw [pow2_eq_zpow]; norm_num

lemma pow2_self_mul_neg (e : ℤ) : pow2 e * pow2 (-e) = 1 := by
  rw [← pow2_add]
  simp [pow2_zero]

lemma rhe_ge_floor (q : ℚ) : ⌊q⌋ ≤ rhe q := by
  simp only [rhe]
  split_ifs <;> omega

lemma rhe_nonneg {q : ℚ} (h : 0 ≤ q) : 0 ≤ rhe q :=
  le_trans (Int.floor_nonneg.mpr h) (rhe_ge_floor q)

lemma rhe_le_ceil (q : ℚ) : rhe q ≤ ⌈q⌉ := by
  have hfc : ⌊q⌋ ≤ ⌈q⌉ := Int.floor_le_ceil q
  have hup : (1 : ℚ) / 2 ≤ q - ⌊q⌋ → ⌊q⌋ + 1 ≤ ⌈q⌉ := by
    intro h
    rw [Int.add_one_le_iff, Int.lt_ceil]
    have := Int.floor_le q
    nlinarith
  simp only [rhe]
  split_ifs with h1 h2 h3
  · exact hfc
  · exact hup (by linarith)
  · exact hfc
  · exact hup (by linarith)

lemma rhe_intCast (n : ℤ) : rhe (n : ℚ) = n := by
  have h1 : ⌊(n : ℚ)⌋ = n := Int.floor_intCast n
  simp only [rhe]
  rw [h1]
  norm_num

lemma rhe_le_of_le_int {q : ℚ} {c : ℤ} (h : q ≤ (c : ℚ)) : rhe q ≤ c :=
  le_trans (rhe_le_ceil q) (Int.ceil_le.mpr h)

lemma int_le_rhe {q : ℚ} {c : ℤ} (h : (c : ℚ) ≤ q) : c ≤ rhe q :=
  le_trans (Int.le_floor.mpr h) (rhe_ge_floor q)

lemma bits_bracketQ (n : ℕ) (h : n ≠ 0) :
    (2 : ℚ) ^ (bits n : ℤ) ≤ 2 * n ∧ (n : ℚ) < 2 ^ (bits n : ℤ) := by
  obtain ⟨h1, h2⟩ := bits_spec n h
  have e1 : (2 : ℚ) ^ (bits n : ℤ) = ((2 ^ bits n : ℕ) : ℚ) := by
    rw [zpow_natCast]; push_cast; ring
  refine ⟨?_, ?_⟩ <;> rw [e1]
  · exact_mod_cast h1
  · exact_mod_cast h2

lemma ratBracket {p d : ℕ} {a : ℚ} (hp0 : p ≠ 0) (hd0 : d ≠ 0)
    (heq : a = (p : ℚ) / (d : ℚ)) :
    (2 : ℚ) ^ ((bits p : ℤ) - (bits d : ℤ) - 1) < a ∧
      a < (2 : ℚ) ^ ((bits p : ℤ) - (bits d : ℤ) + 1) := by
  obtain ⟨hp1, hp2⟩ := bits_bracketQ p hp0
  obtain ⟨hq1, hq2⟩ := bits_bracketQ d hd0
  have hpQ : (0 : ℚ) < (p : ℚ) := by
    have : 0 < p := Nat.pos_of_ne_zero hp0
    exact_mod_cast this
  have hdQ : (0 : ℚ) < (d : ℚ) := by
    have : 0 < d := Nat.pos_of_ne_zero hd0
    exact_mod_cast this
  subst heq
  constructor
  · rw [lt_div_iff₀ hdQ]
    have e1 : (2 : ℚ) ^ ((bits p : ℤ) - (bits d : ℤ) - 1) * (d : ℚ) =
        (2 : ℚ) ^ (bits p : ℤ) * (d : ℚ) / ((2 : ℚ) ^ (bits d : ℤ) * 2) := by
      rw [zpow_sub₀ two_ne_zero, zpow_sub₀ two_ne_zero, zpow_one]
      ring
    rw [e1, div_lt_iff₀ (by positivity)]
    calc (2 : ℚ) ^ (bits p : ℤ) * (d : ℚ)
        ≤ 2 * (p : ℚ) * (d : ℚ) := mul_le_mul_of_nonneg_right hp1 (le_of_lt hdQ)
      _ < 2 * (p : ℚ) * (2 : ℚ) ^ (bits d : ℤ) := by
          apply mul_lt_mul_of_pos_left hq2
          positivity
      _ = (p : ℚ) * ((2 : ℚ) ^ (bits d : ℤ) * 2) := by ring
  · rw [div_lt_iff₀ hdQ]
    have e1 : (2 : ℚ) ^ ((bits p : ℤ) - (bits d : ℤ) + 1) * (d : ℚ) =
        (2 : ℚ) ^ (bits p : ℤ) * 2 * (d : ℚ) / (2 : ℚ) ^ (bits d : ℤ) := by
      rw [zpow_add₀ two_ne_zero, zpow_sub₀ two_ne_zero, zpow_one]
      ring
    rw [e1, lt_div_iff₀ (by positivity)]
    calc (p : ℚ) * (2 : ℚ) ^ (bits d : ℤ)
        < (2 : ℚ) ^ (bits p : ℤ) * (2 : ℚ) ^ (bits d : ℤ) := by
          apply mul_lt_mul_of_pos_right hp2
          positivity
      _ ≤ (2 : ℚ) ^ (bits p : ℤ) * (2 * (d : ℚ)) := by
          apply mul_le_mul_of_nonneg_left hq1
          positivity
      _ = (2 : ℚ) ^ (bits p : ℤ) * 2 * (d : ℚ) := by ring

lemma ilog2Q_spec {a : ℚ} (ha : 0 < a) :
    pow2 (ilog2Q a) ≤ a ∧ a < pow2 (ilog2Q a + 1) := by
  have hnum : 0 < a.num := Rat.num_pos.mpr ha
  have hdenN : 0 < a.den := a.pos
  have hnum0 : a.num.toNat ≠ 0 := by omega
  have hden0 : a.den ≠ 0 := by omega
  have hnum_cast : ((a.num.toNat : ℕ) : ℚ) = (a.num : ℚ) := by
    have := Int.toNat_of_nonneg (le_of_lt hnum)
    exact_mod_cast congrArg (fun z : ℤ => (z : ℚ)) this
  have ha_eq : a = (a.num.toNat : ℚ) / (a.den : ℚ) := by
    rw [hnum_cast]
    exact (Rat.num_div_den a).symm
  obtain ⟨hlow, hup⟩ := ratBracket hnum0 hden0 ha_eq
  simp only [ilog2Q]
  split_ifs with h
  · rw [pow2_eq_zpow] at h
    rw [pow2_eq_zpow, pow2_eq_zpow]
    constructor
    · exact le_of_lt hlow
    · rw [show (bits a.num.toNat : ℤ) - (bits a.den : ℤ) - 1 + 1 =
          (bits a.num.toNat : ℤ) - (bits a.den : ℤ) by ring]
      exact h
  · push_neg at h
    rw [pow2_eq_zpow] at h
    rw [pow2_eq_zpow, pow2_eq_zpow]
    exact ⟨h, hup⟩

lemma ilog2Q_unique {a : ℚ} {e : ℤ} (ha : 0 < a)
    (h1 : pow2 e ≤ a) (h2 : a < pow2 (e + 1)) : ilog2Q a = e := by
  obtain ⟨l1, l2⟩ := ilog2Q_spec ha
  by_contra hne
  rcases lt_or_gt_of_ne hne with hlt | hgt
  · have hmono : pow2 (ilog2Q a + 1) ≤ pow2 e := pow2_mono (by omega)
    linarith
  · have hmono : pow2 (e + 1) ≤ pow2 (ilog2Q a) := pow2_mono (by omega)
    linarith

lemma roundF32_zero : roundF32 0 = 0 := by
  simp [roundF32]

lemma roundF32_of_pos {q : ℚ} (hq : 0 < q) :
    roundF32 q = (rhe (q * pow2 (23 - max (ilog2Q q) (-126))) : ℚ) *
      pow2 (-(23 - max (ilog2Q q) (-126))) := by
  simp only [roundF32]
  rw [if_neg (ne_of_gt hq), if_neg (not_lt.mpr (le_of_lt hq)), abs_of_pos hq]
  ring

lemma roundF32_nonneg {q : ℚ} (h : 0 ≤ q) : 0 ≤ roundF32 q := by
  rcases eq_or_lt_of_le h with h0 | hpos
  · rw [← h0, roundF32_zero]
  · rw [roundF32_of_pos hpos]
    have hm : 0 ≤ rhe (q * pow2 (23 - max (ilog2Q q) (-126))) :=
      rhe_nonneg (mul_nonneg h (le_of_lt (pow2_pos _)))
    exact mul_nonneg (by exact_mod_cast hm) (le_of_lt (pow2_pos _))

lemma roundF32_neg_eq (q : ℚ) : roundF32 (-q) = -roundF32 q := by
  by_cases h0 : q = 0
  · subst h0
    simp [roundF32]
  · have h0n : -q ≠ 0 := neg_ne_zero.mpr h0
    simp only [roundF32]
    rw [if_neg h0, if_neg h0n, abs_neg]
    rcases lt_trichotomy q 0 with hneg | hz | hpos
    · rw [if_pos hneg, if_neg (by linarith : ¬(-q < 0))]
      ring
    · exact absurd hz h0
    · rw [if_neg (by linarith : ¬(q < 0)), if_pos (by linarith : -q < 0)]
      ring

lemma roundF32_nonpos {q : ℚ} (h : q ≤ 0) : roundF32 q ≤ 0 := by
  have h2 : 0 ≤ roundF32 (-q) := roundF32_nonneg (by linarith)
  rw [roundF32_neg_eq] at h2
  linarith

lemma roundF32_le_one {q : ℚ} (h0 : 0 ≤ q) (h1 : q ≤ 1) : roundF32 q ≤ 1 := by
  rcases eq_or_lt_of_le h0 with hz | hpos
  · rw [← hz, roundF32_zero]
    norm_num
  · obtain ⟨l1, l2⟩ := ilog2Q_spec hpos
    have hele : ilog2Q q ≤ 0 := by
      by_contra hc
      push_neg at hc
      have hm : pow2 1 ≤ pow2 (ilog2Q q) := pow2_mono (by omega)
      have h2 : pow2 1 = (2 : ℚ) := by
        rw [pow2_eq_zpow, zpow_one]
      linarith
    set e : ℤ := max (ilog2Q q) (-126) with he
    have heneg : e ≤ 0 := max_le hele (by norm_num)
    have hk : (0 : ℤ) ≤ 23 - e := by omega
    have hint : pow2 (23 - e) = (((2 ^ (23 - e).toNat : ℕ) : ℤ) : ℚ) := by
      rw [pow2, if_pos hk]
      push_cast
      ring
    have harg : q * pow2 (23 - e) ≤ (((2 ^ (23 - e).toNat : ℕ) : ℤ) : ℚ) := by
      rw [← hint]
      nlinarith [pow2_pos (23 - e)]
    have hm : rhe (q * pow2 (23 - e)) ≤ ((2 ^ (23 - e).toNat : ℕ) : ℤ) :=
      rhe_le_of_le_int harg
    rw [roundF32_of_pos hpos, ← he]
    calc (rhe (q * pow2 (23 - e)) : ℚ) * pow2 (-(23 - e))
        ≤ (((2 ^ (23 - e).toNat : ℕ) : ℤ) : ℚ) * pow2 (-(23 - e)) := by
          apply mul_le_mul_of_nonneg_right _ (le_of_lt (pow2_pos _))
          exact_mod_cast hm
      _ = pow2 (23 - e) * pow2 (-(23 - e)) := by rw [hint]
      _ = 1 := pow2_self_mul_neg _

lemma roundF32_intCast_pos {n : ℤ} (h0 : 0 < n) (h : n ≤ 2 ^ 24) :
    roundF32 (n : ℚ) = (n : ℚ) := by
  have hq : (0 : ℚ) < (n : ℚ) := by exact_mod_cast h0
  obtain ⟨l1, l2⟩ := ilog2Q_spec hq
  have he0 : 0 ≤ ilog2Q (n : ℚ) := by
    by_contra hc
    push_neg at hc
    have hm : pow2 (ilog2Q (n : ℚ) + 1) ≤ pow2 0 := pow2_mono (by omega)
    rw [pow2_zero] at hm
    have hlt : (n : ℚ) < 1 := lt_of_lt_of_le l2 hm
    have : n < 1 := by exact_mod_cast hlt
    omega
  have he24 : ilog2Q (n : ℚ) ≤ 24 := by
    by_contra hc
    push_neg at hc
    have hm : pow2 25 ≤ pow2 (ilog2Q (n : ℚ)) := pow2_mono (by omega)
    have h25 : pow2 25 = ((33554432 : ℤ) : ℚ) := by decide
    have hle : ((33554432 : ℤ) : ℚ) ≤ (n : ℚ) := by
      rw [← h25]
      exact le_trans hm l1
    have : (33554432 : ℤ) ≤ n := by exact_mod_cast hle
    omega
  have hmax : max (ilog2Q (n : ℚ)) (-126) = ilog2Q (n : ℚ) := max_eq_left (by omega)
  rcases le_or_lt (ilog2Q (n : ℚ)) 23 with h23 | h24
  · have hk : (0 : ℤ) ≤ 23 - ilog2Q (n : ℚ) := by omega
    have hint : pow2 (23 - ilog2Q (n : ℚ)) = (2 : ℚ) ^ (23 - ilog2Q (n : ℚ)).toNat := by
      rw [pow2, if_pos hk]
      push_cast
      ring
    have harg : (n : ℚ) * pow2 (23 - ilog2Q (n : ℚ)) =
        ((n * 2 ^ (23 - ilog2Q (n : ℚ)).toNat : ℤ) : ℚ) := by
      rw [hint]
      push_cast
      ring
    rw [roundF32_of_pos hq, hmax, harg, rhe_intCast]
    push_cast
    rw [mul_assoc, ← hint, pow2_self_mul_neg, mul_one]
  · have he : ilog2Q (n : ℚ) = 24 := by omega
    have hn : n = 2 ^ 24 := by
      have h24p : pow2 (ilog2Q (n : ℚ)) ≤ (n : ℚ) := l1
      rw [he] at h24p
      have hp24 : pow2 24 = ((16777216 : ℤ) : ℚ) := by decide
      rw [hp24] at h24p
      have : (16777216 : ℤ) ≤ n := by exact_mod_cast h24p
      omega
    subst hn
    decide

lemma roundF32_intCast {n : ℤ} (h : |n| ≤ 2 ^ 24) : roundF32 (n : ℚ) = (n : ℚ) := by
  rw [abs_le] at h
  rcases lt_trichotomy n 0 with hneg | h0 | hpos
  · have hpos2 : 0 < -n := by omega
    have hle2 : -n ≤ 2 ^ 24 := by omega
    have hcast : ((n : ℤ) : ℚ) = -(((-n : ℤ) : ℚ)) := by push_cast; ring
    rw [hcast, roundF32_neg_eq, roundF32_intCast_pos hpos2 hle2]
  · subst h0
    simp [roundF32]
  · exact roundF32_intCast_pos hpos (by omega)

lemma truncQ_abs_le (q : ℚ) : |(truncQ q : ℚ)| ≤ |q| := by
  unfold truncQ
  split_ifs with h
  · rw [abs_of_nonneg h, abs_of_nonneg]
    · exact Int.floor_le q
    · exact_mod_cast Int.floor_nonneg.mpr h
  · push_neg at h
    have h2 : (0 : ℚ) ≤ -q := by linarith
    have h3 : (0 : ℚ) ≤ ((⌊-q⌋ : ℤ) : ℚ) := by exact_mod_cast Int.floor_nonneg.mpr h2
    have h4 : ((-⌊-q⌋ : ℤ) : ℚ) = -((⌊-q⌋ : ℤ) : ℚ) := by push_cast; ring
    rw [h4, abs_neg, abs_of_nonneg h3, abs_of_neg h]
    exact Int.floor_le (-q)

/-- C3 (amended): whenever the scaled input `u = x * 0.159154943092f` has
magnitude below `2 ^ 24` (so the period count converts to float exactly), the
folded position `in = u - n` lies in the closed interval `[0, 1]`.  The right
endpoint is attained (see the counterexample), so `[0, 1)` fails. -/
theorem C3_fold_in_unit_interval (x : ℚ) (hu : |sin_u x| < 2 ^ 24) :
    ∃ v, sin_in x = some v ∧ 0 ≤ v ∧ v ≤ 1 := by
  have htabs : |(truncQ (sin_u x) : ℚ)| ≤ |sin_u x| := truncQ_abs_le _
  have htlt : |truncQ (sin_u x)| < 2 ^ 24 := by
    have h1 : |(truncQ (sin_u x) : ℚ)| < (2 : ℚ) ^ 24 := lt_of_le_of_lt htabs hu
    have h2 : ((|truncQ (sin_u x)| : ℤ) : ℚ) < ((2 ^ 24 : ℤ) : ℚ) := by
      rw [Int.cast_abs]
      push_cast
      exact_mod_cast h1
    exact_mod_cast h2
  have htlt2 := htlt
  rw [abs_lt] at htlt2
  have htoint : toInt32 (sin_u x) = some (truncQ (sin_u x)) := by
    simp only [toInt32]
    rw [if_pos]
    constructor <;> omega
  set n : ℤ := if x < 0 then truncQ (sin_u x) - 1 else truncQ (sin_u x) with hndef
  have hn_lb : -(2 ^ 31) ≤ n := by
    rw [hndef]
    split_ifs <;> omega
  have hsn : sin_n x = some n := by
    simp only [sin_n]
    rw [htoint]
    simp only [← hndef]
    rw [if_pos hn_lb]
  have hnabs : |n| ≤ 2 ^ 24 := by
    rw [hndef, abs_le]
    split_ifs <;> constructor <;> omega
  have hi2f : i2f n = (n : ℚ) := roundF32_intCast hnabs
  have hc : (0 : ℚ) ≤ cInv2Pi := by decide
  have hd : 0 ≤ sin_u x - (n : ℚ) ∧ sin_u x - (n : ℚ) ≤ 1 := by
    by_cases hx : x < 0
    · have hu0 : sin_u x ≤ 0 := by
        unfold sin_u fmul
        exact roundF32_nonpos (mul_nonpos_iff.mpr (Or.inr ⟨le_of_lt hx, hc⟩))
      rw [hndef, if_pos hx]
      by_cases hu00 : sin_u x = 0
      · rw [hu00]
        norm_num [truncQ]
      · have hu0x : sin_u x < 0 := lt_of_le_of_ne hu0 hu00
        have ht : truncQ (sin_u x) = -⌊-(sin_u x)⌋ := by
          unfold truncQ
          rw [if_neg (not_le.mpr hu0x)]
        rw [ht]
        have hf1 := Int.floor_le (-(sin_u x))
        have hf2 := Int.sub_one_lt_floor (-(sin_u x))
        constructor
        · push_cast
          linarith
        · push_cast
          linarith
    · push_neg at hx
      have hu0 : 0 ≤ sin_u x := by
        unfold sin_u fmul
        exact roundF32_nonneg (mul_nonneg hx hc)
      rw [hndef, if_neg (not_lt.mpr hx)]
      have ht : truncQ (sin_u x) = ⌊sin_u x⌋ := by
        unfold truncQ
        rw [if_pos hu0]
      rw [ht]
      have hf1 := Int.floor_le (sin_u x)
      have hf2 := Int.lt_floor_add_one (sin_u x)
      constructor
      · linarith
      · linarith
  refine ⟨roundF32 (sin_u x - (n : ℚ)), ?_, roundF32_nonneg hd.1, roundF32_le_one hd.1 hd.2⟩
  simp only [sin_in]
  rw [hsn]
  simp only [Option.map_some']
  unfold fsub
  rw [hi2f]

/-- Witness for C3 at the concrete input `x = 0`. -/
theorem C3_fold_in_unit_interval_witness :
    |sin_u 0| < 2 ^ 24 ∧ ∃ v, sin_in 0 = some v ∧ 0 ≤ v ∧ v ≤ 1 :=
  ⟨by decide, C3_fold_in_unit_interval 0 (by decide)⟩

lemma ilog2Q_dyadic {m s : ℤ} (hm : 0 < m) :
    ilog2Q ((m : ℚ) * pow2 s) = ilog2Q (m : ℚ) + s := by
  have hq : (0 : ℚ) < (m : ℚ) := by exact_mod_cast hm
  have hv : 0 < (m : ℚ) * pow2 s := mul_pos hq (pow2_pos s)
  obtain ⟨l1, l2⟩ := ilog2Q_spec hq
  apply ilog2Q_unique hv
  · rw [pow2_add]
    exact mul_le_mul_of_nonneg_right l1 (le_of_lt (pow2_pos s))
  · rw [show ilog2Q (m : ℚ) + s + 1 = ilog2Q (m : ℚ) + 1 + s by ring, pow2_add]
    exact mul_lt_mul_of_pos_right l2 (pow2_pos s)

lemma ilog2Q_int_bounds {m : ℤ} (hm0 : 0 < m) (hm : m ≤ 2 ^ 24) :
    0 ≤ ilog2Q (m : ℚ) ∧ ilog2Q (m : ℚ) ≤ 24 ∧
      (ilog2Q (m : ℚ) = 24 → m = 2 ^ 24) := by
  have hq : (0 : ℚ) < (m : ℚ) := by exact_mod_cast hm0
  obtain ⟨l1, l2⟩ := ilog2Q_spec hq
  have he0 : 0 ≤ ilog2Q (m : ℚ) := by
    by_contra hc
    push_neg at hc
    have hmono : pow2 (ilog2Q (m : ℚ) + 1) ≤ pow2 0 := pow2_mono (by omega)
    rw [pow2_zero] at hmono
    have hlt : (m : ℚ) < 1 := lt_of_lt_of_le l2 hmono
    have : m < 1 := by exact_mod_cast hlt
    omega
  have he24 : ilog2Q (m : ℚ) ≤ 24 := by
    by_contra hc
    push_neg at hc
    have hmono : pow2 25 ≤ pow2 (ilog2Q (m : ℚ)) := pow2_mono (by omega)
    have h25 : pow2 25 = ((33554432 : ℤ) : ℚ) := by decide
    have hle : ((33554432 : ℤ) : ℚ) ≤ (m : ℚ) := by
      rw [← h25]
      exact le_trans hmono l1
    have : (33554432 : ℤ) ≤ m := by exact_mod_cast hle
    omega
  refine ⟨he0, he24, fun he => ?_⟩
  have h24p : pow2 24 ≤ (m : ℚ) := he ▸ l1
  have hp24 : pow2 24 = ((16777216 : ℤ) : ℚ) := by decide
  rw [hp24] at h24p
  have : (16777216 : ℤ) ≤ m := by exact_mod_cast h24p
  omega

lemma roundF32_dyadic_fixed {m s : ℤ} (hm0 : 0 < m) (hm : m ≤ 2 ^ 24) (hs : -149 ≤ s) :
    roundF32 ((m : ℚ) * pow2 s) = (m : ℚ) * pow2 s := by
  have hq : (0 : ℚ) < (m : ℚ) := by exact_mod_cast hm0
  have hv : 0 < (m : ℚ) * pow2 s := mul_pos hq (pow2_pos s)
  obtain ⟨he0, he24, hhi⟩ := ilog2Q_int_bounds hm0 hm
  have hil : ilog2Q ((m : ℚ) * pow2 s) = ilog2Q (m : ℚ) + s := ilog2Q_dyadic hm0
  set em : ℤ := ilog2Q (m : ℚ) with hemdef
  rw [roundF32_of_pos hv, hil]
  by_cases hcase : -126 ≤ em + s
  · have hmax : max (em + s) (-126) = em + s := max_eq_left hcase
    rw [hmax]
    rcases lt_or_ge em 24 with h23 | h24
    · have ht : (0 : ℤ) ≤ 23 - em := by omega
      have hp : pow2 (23 - em) = (2 : ℚ) ^ (23 - em).toNat := by
        rw [pow2, if_pos ht]
        push_cast
        ring
      have hsplit : pow2 s * pow2 (23 - (em + s)) = pow2 (23 - em) := by
        rw [← pow2_add, show s + (23 - (em + s)) = 23 - em by ring]
      have harg : (m : ℚ) * pow2 s * pow2 (23 - (em + s)) =
          ((m * 2 ^ (23 - em).toNat : ℤ) : ℚ) := by
        rw [mul_assoc, hsplit, hp]
        push_cast
        ring
      have hback : ((m * 2 ^ (23 - em).toNat : ℤ) : ℚ) = (m : ℚ) * pow2 (23 - em) := by
        rw [hp]
        push_cast
        ring
      rw [harg, rhe_intCast, hback, mul_assoc, ← pow2_add,
        show (23 : ℤ) - em + -(23 - (em + s)) = s by ring]
    · have hm24 : m = 2 ^ 24 := hhi (by omega)
      have hem : em = 24 := by omega
      have hsplit : pow2 s * pow2 (23 - (em + s)) = pow2 (-1) := by
        rw [← pow2_add, show s + (23 - (em + s)) = 23 - em by ring, hem]
        norm_num
      have e224 : ((2 ^ 24 : ℤ) : ℚ) * pow2 (-1) = ((2 ^ 23 : ℤ) : ℚ) := by decide
      have harg : (m : ℚ) * pow2 s * pow2 (23 - (em + s)) = ((2 ^ 23 : ℤ) : ℚ) := by
        rw [mul_assoc, hsplit, hm24, e224]
      have e23 : ((2 ^ 23 : ℤ) : ℚ) = pow2 23 := by decide
      have e24 : ((2 ^ 24 : ℤ) : ℚ) = pow2 24 := by decide
      rw [harg, rhe_intCast, e23, ← pow2_add,
        show (23 : ℤ) + -(23 - (em + s)) = em + s by ring, hem, hm24, e24, pow2_add]
  · push_neg at hcase
    have hmax : max (em + s) (-126) = -126 := max_eq_right (by omega)
    rw [hmax]
    have ht : (0 : ℤ) ≤ s + 149 := by omega
    have hp : pow2 (s + 149) = (2 : ℚ) ^ (s + 149).toNat := by
      rw [pow2, if_pos ht]
      push_cast
      ring
    have hsplit : pow2 s * pow2 (23 - -126) = pow2 (s + 149) := by
      rw [← pow2_add, show s + (23 - -126) = s + 149 by ring]
    have harg : (m : ℚ) * pow2 s * pow2 (23 - -126) =
        ((m * 2 ^ (s + 149).toNat : ℤ) : ℚ) := by
      rw [mul_assoc, hsplit, hp]
      push_cast
      ring
    have hback : ((m * 2 ^ (s + 149).toNat : ℤ) : ℚ) = (m : ℚ) * pow2 (s + 149) := by
      rw [hp]
      push_cast
      ring
    rw [harg, rhe_intCast, hback, mul_assoc, ← pow2_add,
      show s + 149 + -(23 - -126) = s by ring]

lemma roundF32_idem_pos {q : ℚ} (hpos : 0 < q) : roundF32 (roundF32 q) = roundF32 q := by
  obtain ⟨l1, l2⟩ := ilog2Q_spec hpos
  set e : ℤ := max (ilog2Q q) (-126) with hedef
  have hup : q < pow2 (e + 1) :=
    lt_of_lt_of_le l2 (pow2_mono (by omega))
  have hr := roundF32_of_pos hpos
  rw [← hedef] at hr
  set m : ℤ := rhe (q * pow2 (23 - e)) with hmdef
  have hm0 : 0 ≤ m := rhe_nonneg (mul_nonneg (le_of_lt hpos) (le_of_lt (pow2_pos _)))
  have hm24 : m ≤ 2 ^ 24 := by
    apply rhe_le_of_le_int
    have harg : q * pow2 (23 - e) < pow2 24 := by
      have := mul_lt_mul_of_pos_right hup (pow2_pos (23 - e))
      rw [← pow2_add] at this
      rw [show e + 1 + (23 - e) = 24 by ring] at this
      exact this
    have h24 : pow2 24 = ((16777216 : ℤ) : ℚ) := by decide
    rw [h24] at harg
    exact le_of_lt harg
  rcases eq_or_lt_of_le hm0 with hz | hmpos
  · rw [hr, ← hz]
    norm_num [roundF32_zero]
  · rw [hr]
    have := roundF32_dyadic_fixed hmpos hm24 (s := -(23 - e)) (by omega)
    exact this

lemma roundF32_idem (q : ℚ) : roundF32 (roundF32 q) = roundF32 q := by
  rcases lt_trichotomy q 0 with hneg | h0 | hpos
  · have h2 : 0 < -q := by linarith
    have := roundF32_idem_pos h2
    rw [roundF32_neg_eq] at this
    have h3 := congrArg Neg.neg this
    rw [neg_neg, ← roundF32_neg_eq, neg_neg] at h3
    exact h3
  · subst h0
    rw [roundF32_zero, roundF32_zero]
  · exact roundF32_idem_pos hpos

/-! ### Behaviour at `fract = 0` -/

lemma sinTable_entry_round_fixed {j : ℕ} (h : j < 259) :
    roundF32 ((sinTable.get? j).getD 0) = (sinTable.get? j).getD 0 := by
  have hlenRaw : sinTableRaw.length = 259 := by decide
  have h2 : j < sinTableRaw.length := by omega
  have hmap : sinTable.get? j = (sinTableRaw.get? j).map roundF32 := by
    simp [sinTable, List.get?_map]
  rw [hmap, List.get?_eq_get h2]
  simp only [Option.map_some', Option.getD_some]
  exact roundF32_idem _

lemma sinTable_get_some {j : ℕ} (h : j < 259) :
    sinTable.get? j = some ((sinTable.get? j).getD 0) := by
  have hlenRaw : sinTableRaw.length = 259 := by decide
  have hlen : sinTable.length = 259 := by
    simp [sinTable, hlenRaw]
  have h2 : j < sinTable.length := by omega
  rw [List.get?_eq_get h2]
  rfl

lemma interp_of_gets {i : ℤ} {fr a b c d wa wb wc wd : ℚ} (h0 : ¬i < 0)
    (hw : sinWeights fr = (wa, wb, wc, wd))
    (ha : sinTable.get? i.toNat = some a)
    (hb : sinTable.get? (i.toNat + 1) = some b)
    (hc : sinTable.get? (i.toNat + 2) = some c)
    (hd : sinTable.get? (i.toNat + 3) = some d) :
    interp i fr =
      some (fadd (fadd (fmul wa a) (fmul b wb)) (fadd (fmul c wc) (fmul d wd))) := by
  simp only [interp]
  rw [if_neg h0, ha, hb, hc, hd, hw]

lemma weighted_sum_unit {a b c d : ℚ} (hb : roundF32 b = b) :
    fadd (fadd (fmul 0 a) (fmul b 1)) (fadd (fmul c 0) (fmul d 0)) = b := by
  simp only [fadd, fmul, zero_mul, mul_one, mul_zero, roundF32_zero, zero_add,
    add_zero, hb]

/-- C9 counterexample: at the finite input `-2^-30` the computed `fract` is
exactly `0`, but the function does not return `table[index+1]`: the fourth
fetch is out of bounds (undefined behaviour), so no value is returned. -/
theorem C9_counterexample_fract_zero_oob :
    sin_fract (-(1 / 2 ^ 30)) = some 0 ∧ sin_index (-(1 / 2 ^ 30)) = some 256 ∧
    arm_sin_f32 (-(1 / 2 ^ 30)) = none := by
  decide

/-- C9 (amended): the weights at `fract = 0` are exactly `(0, 1, 0, 0)`, and
for every input whose computed `fract` is exactly `0` and whose clamped index
is at most 255 (the in-bounds case), `arm_sin_f32` returns exactly the table
sample `table[index + 1]`; in particular `arm_sin_f32 0 = 0` exactly.  (For
clamped index 256 with `fract = 0` the fetch is out of bounds; see the
counterexample.) -/
theorem C9_fract_zero_returns_sample :
    sinWeights 0 = (0, 1, 0, 0) ∧
    (∀ x i, sin_index x = some i → sin_fract x = some 0 → i ≤ 255 →
      arm_sin_f32 x = sinTable.get? (i.toNat + 1)) ∧
    arm_sin_f32 0 = some 0 := by
  refine ⟨by decide, ?_, by decide⟩
  intro x i hidx hfr hle
  have hidx2 := hidx
  unfold sin_index at hidx2
  obtain ⟨i0, hi0, hclamp⟩ := Option.map_eq_some'.mp hidx2
  have hge : 0 ≤ i := by
    rw [← hclamp]
    unfold clampIndex
    split_ifs <;> omega
  have hnat : i.toNat ≤ 255 := by omega
  unfold arm_sin_f32
  rw [hidx, hfr]
  show interp i 0 = sinTable.get? (i.toNat + 1)
  have hb := sinTable_entry_round_fixed (j := i.toNat + 1) (by omega)
  have hw : sinWeights 0 = (0, 1, 0, 0) := by decide
  rw [interp_of_gets (not_lt.mpr hge) hw
      (sinTable_get_some (j := i.toNat) (by omega))
      (sinTable_get_some (j := i.toNat + 1) (by omega))
      (sinTable_get_some (j := i.toNat + 2) (by omega))
      (sinTable_get_some (j := i.toNat + 3) (by omega)),
    weighted_sum_unit hb]
  exact (sinTable_get_some (j := i.toNat + 1) (by omega)).symm

/-- Witness for C9 at `x = 0`, clamped index `0`. -/
theorem C9_fract_zero_returns_sample_witness : arm_sin_f32 0 = sinTable.get? 1 :=
  C9_fract_zero_returns_sample.2.1 0 0 (by decide) (by decide) (by decide)

/-! ### A single-pass evaluator for `arm_sin_f32`, used for bulk evaluation -/

/-- `arm_sin_f32` computed in one pass (the staged definitions recompute
their predecessors; this function is extensionally equal, see
`armSinEval_eq`, and is what the sampled-accuracy check evaluates). -/
def armSinEval (x : ℚ) : Option ℚ :=
  match toInt32 (sin_u x) with
  | none => none
  | some n0 =>
    let n : ℤ := if x < 0 then n0 - 1 else n0
    if -(2 ^ 31) ≤ n then
      let p := fmul 256 (fsub (sin_u x) (i2f n))
      match toUInt32AsInt32 p with
      | none => none
      | some i0 => interp (clampIndex i0) (fsub p (i2f i0))
    else none

lemma armSinEval_eq (x : ℚ) : armSinEval x = arm_sin_f32 x := by
  unfold armSinEval arm_sin_f32 sin_index sin_fract sin_index0 sin_pos sin_in sin_n
  rcases h1 : toInt32 (sin_u x) with _ | n0
  · simp
  · dsimp only
    set n : ℤ := if x < 0 then n0 - 1 else n0 with hndef
    by_cases h2 : -(2 ^ 31) ≤ n
    · rw [if_pos h2, if_pos h2]
      simp only [Option.map_some', Option.some_bind]
      rcases h3 : toUInt32AsInt32 (fmul 256 (fsub (sin_u x) (i2f n))) with _ | i0
      · simp [h3]
      · simp [h3]
    · rw [if_neg h2, if_neg h2]
      simp
/-- The degree-61 Taylor polynomial of sine (terms `k < 31`), in Horner form
over `x2 = x ^ 2`; the coefficients are the exact rationals `(-1) ^ k / (2k+1)!`. -/
def sinTaylorQ (x : ℚ) : ℚ :=
  let x2 := x * x
  x * ((1 : ℚ) / 1 + x2 * ((-1 : ℚ) / 6 + x2 * ((1 : ℚ) / 120 + x2 * ((-1 : ℚ) / 5040 + x2 * ((1 : ℚ) / 362880 + x2 * ((-1 : ℚ) / 39916800 + x2 * ((1 : ℚ) / 6227020800 + x2 * ((-1 : ℚ) / 1307674368000 + x2 * ((1 : ℚ) / 355687428096000 + x2 * ((-1 : ℚ) / 121645100408832000 + x2 * ((1 : ℚ) / 51090942171709440000 + x2 * ((-1 : ℚ) / 25852016738884976640000 + x2 * ((1 : ℚ) / 15511210043330985984000000 + x2 * ((-1 : ℚ) / 10888869450418352160768000000 + x2 * ((1 : ℚ) / 8841761993739701954543616000000 + x2 * ((-1 : ℚ) / 8222838654177922817725562880000000 + x2 * ((1 : ℚ) / 8683317618811886495518194401280000000 + x2 * ((-1 : ℚ) / 10333147966386144929666651337523200000000 + x2 * ((1 : ℚ) / 13763753091226345046315979581580902400000000 + x2 * ((-1 : ℚ) / 20397882081197443358640281739902897356800000000 + x2 * ((1 : ℚ) / 33452526613163807108170062053440751665152000000000 + x2 * ((-1 : ℚ) / 60415263063373835637355132068513997507264512000000000 + x2 * ((1 : ℚ) / 119622220865480194561963161495657715064383733760000000000 + x2 * ((-1 : ℚ) / 258623241511168180642964355153611979969197632389120000000000 + x2 * ((1 : ℚ) / 608281864034267560872252163321295376887552831379210240000000000 + x2 * ((-1 : ℚ) / 1551118753287382280224243016469303211063259720016986112000000000000 + x2 * ((1 : ℚ) / 4274883284060025564298013753389399649690343788366813724672000000000000 + x2 * ((-1 : ℚ) / 12696403353658275925965100847566516959580321051449436762275840000000000000 + x2 * ((1 : ℚ) / 40526919504877216755680601905432322134980384796226602145184481280000000000000 + x2 * ((-1 : ℚ) / 138683118545689835737939019720389406345902876772687432540821294940160000000000000 + x2 * ((1 : ℚ) / 507580213877224798800856812176625227226004528988036003099405939480985600000000000000)))))))))))))))))))))))))))))))

/-! ### An integer-arithmetic implementation of the rounding, for bulk
evaluation -/

/-- Round-half-even of `N / D` on naturals. -/
def rheND (N D : ℕ) : ℕ :=
  if 2 * (N % D) < D then N / D
  else if D < 2 * (N % D) then N / D + 1
  else if N / D % 2 = 0 then N / D else N / D + 1

/-- `roundF32` computed with integer arithmetic only (same result, see
`roundFast_eq`); much cheaper to evaluate. -/
def roundFast (q : ℚ) : ℚ :=
  if q = 0 then 0
  else
    let a := |q|
    let e := max (ilog2Q a) (-126)
    let k := 23 - e
    let N := q.num.natAbs * 2 ^ k.toNat
    let D := q.den * 2 ^ (-k).toNat
    (if q < 0 then -1 else 1) * ((rheND N D : ℕ) : ℚ) * pow2 (-k)

lemma floor_natCast_div (N D : ℕ) :
    ⌊(N : ℚ) / (D : ℚ)⌋ = ((N / D : ℕ) : ℤ) := by
  rw [Rat.floor_natCast_div_natCast]
  exact (Int.ofNat_div N D).symm

lemma rhe_natCast_div {N D : ℕ} (hD : 0 < D) :
    rhe ((N : ℚ) / (D : ℚ)) = ((rheND N D : ℕ) : ℤ) := by
  have hDQ : (0 : ℚ) < (D : ℚ) := by exact_mod_cast hD
  have key : (N : ℚ) = (D : ℚ) * ((N / D : ℕ) : ℚ) + ((N % D : ℕ) : ℚ) := by
    exact_mod_cast congrArg (fun n : ℕ => (n : ℚ)) (Nat.div_add_mod N D).symm
  have hfl : ⌊(N : ℚ) / (D : ℚ)⌋ = ((N / D : ℕ) : ℤ) := floor_natCast_div N D
  have hmod : (N : ℚ) / (D : ℚ) - ((((N / D : ℕ) : ℤ)) : ℚ) = ((N % D : ℕ) : ℚ) / (D : ℚ) := by
    rw [Int.cast_natCast, eq_div_iff (ne_of_gt hDQ), sub_mul,
      div_mul_cancel₀ _ (ne_of_gt hDQ)]
    ring_nf
    ring_nf at key
    linarith
  have hlt_iff : ((N % D : ℕ) : ℚ) / (D : ℚ) < 1 / 2 ↔ 2 * (N % D) < D := by
    rw [div_lt_div_iff₀ hDQ (show (0 : ℚ) < 2 by norm_num),
      show ((N % D : ℕ) : ℚ) * 2 = ((2 * (N % D) : ℕ) : ℚ) by push_cast; ring,
      show (1 : ℚ) * (D : ℚ) = ((D : ℕ) : ℚ) by rw [one_mul]]
    exact Nat.cast_lt
  have hgt_iff : 1 / 2 < ((N % D : ℕ) : ℚ) / (D : ℚ) ↔ D < 2 * (N % D) := by
    rw [div_lt_div_iff₀ (show (0 : ℚ) < 2 by norm_num) hDQ,
      show ((N % D : ℕ) : ℚ) * 2 = ((2 * (N % D) : ℕ) : ℚ) by push_cast; ring,
      show (1 : ℚ) * (D : ℚ) = ((D : ℕ) : ℚ) by rw [one_mul]]
    exact Nat.cast_lt
  have hdvd : ((2 : ℤ) ∣ ((N / D : ℕ) : ℤ)) ↔ N / D % 2 = 0 := by omega
  simp only [rhe, hfl, hmod, rheND, hlt_iff, hgt_iff, hdvd]
  split_ifs <;> push_cast <;> ring

lemma abs_rat_eq {q : ℚ} : |q| = (q.num.natAbs : ℚ) / (q.den : ℚ) := by
  have hden : (0 : ℚ) < (q.den : ℚ) := by exact_mod_cast q.pos
  conv_lhs => rw [← Rat.num_div_den q]
  rw [abs_div, abs_of_pos hden, Int.cast_natAbs, Int.cast_abs]

lemma scale_eq_div (q : ℚ) (k : ℤ) :
    |q| * pow2 k =
      ((q.num.natAbs * 2 ^ k.toNat : ℕ) : ℚ) / ((q.den * 2 ^ (-k).toNat : ℕ) : ℚ) := by
  rw [abs_rat_eq]
  rcases le_or_lt 0 k with hk | hk
  · have h1 : (-k).toNat = 0 := by omega
    rw [pow2, if_pos hk, h1]
    push_cast
    ring
  · have h1 : k.toNat = 0 := by omega
    rw [pow2, if_neg (by omega), h1]
    push_cast
    ring

lemma roundFast_eq (q : ℚ) : roundFast q = roundF32 q := by
  by_cases h0 : q = 0
  · subst h0
    rw [roundF32_zero]
    simp [roundFast]
  · simp only [roundFast, roundF32, if_neg h0]
    have hD : 0 < q.den * 2 ^ (-(23 - max (ilog2Q |q|) (-126))).toNat :=
      Nat.mul_pos q.pos (Nat.pos_pow_of_pos _ (by norm_num))
    rw [scale_eq_div q (23 - max (ilog2Q |q|) (-126)), rhe_natCast_div hD]
    norm_cast

/-! ### The whole pipeline through `roundFast` -/

/-- binary32 multiplication through `roundFast`. -/
def fmulF (a b : ℚ) : ℚ := roundFast (a * b)

/-- binary32 addition through `roundFast`. -/
def faddF (a b : ℚ) : ℚ := roundFast (a + b)

/-- binary32 subtraction through `roundFast`. -/
def fsubF (a b : ℚ) : ℚ := roundFast (a - b)

/-- integer conversion through `roundFast`. -/
def i2fF (n : ℤ) : ℚ := roundFast (n : ℚ)

lemma fmulF_eq (a b : ℚ) : fmulF a b = fmul a b := by
  unfold fmulF fmul; rw [roundFast_eq]

lemma faddF_eq (a b : ℚ) : faddF a b = fadd a b := by
  unfold faddF fadd; rw [roundFast_eq]

lemma fsubF_eq (a b : ℚ) : fsubF a b = fsub a b := by
  unfold fsubF fsub; rw [roundFast_eq]

lemma i2fF_eq (n : ℤ) : i2fF n = i2f n := by
  unfold i2fF i2f; rw [roundFast_eq]

/-- `sinWeights` through `roundFast`. -/
def sinWeightsF (fract : ℚ) : ℚ × ℚ × ℚ × ℚ :=
  let fractsq := fmulF fract fract
  let fractby2 := fmulF fract cHalf
  let fractby6 := fmulF fract cSixth
  let fractby3 := fmulF fract cThird
  let fractsqby2 := fmulF fractsq cHalf
  let frby2xfrsq := fmulF fractby2 fractsq
  let frby6xfrsq := fmulF fractby6 fractsq
  let oneminusfractby2 := fsubF 1 fractby2
  let wb1 := fsubF fractsqby2 fractby3
  let wc1 := faddF fractsqby2 fract
  let wa := fsubF wb1 frby6xfrsq
  let wb2 := fsubF frby2xfrsq fractsq
  let wc := fsubF wc1 frby2xfrsq
  let wd := fsubF frby6xfrsq fractby6
  let wb := faddF wb2 oneminusfractby2
  (wa, wb, wc, wd)

lemma sinWeightsF_eq (fr : ℚ) : sinWeightsF fr = sinWeights fr := by
  unfold sinWeightsF sinWeights
  simp only [fmulF_eq, faddF_eq, fsubF_eq]

/-- `interp` through `roundFast`. -/
def interpF (i : ℤ) (fr : ℚ) : Option ℚ :=
  if i < 0 then none
  else
    match sinTable.get? i.toNat, sinTable.get? (i.toNat + 1),
        sinTable.get? (i.toNat + 2), sinTable.get? (i.toNat + 3) with
    | some a, some b, some c, some d =>
      let w := sinWeightsF fr
      some (faddF (faddF (fmulF w.1 a) (fmulF b w.2.1))
        (faddF (fmulF c w.2.2.1) (fmulF d w.2.2.2)))
    | _, _, _, _ => none

lemma interpF_eq (i : ℤ) (fr : ℚ) : interpF i fr = interp i fr := by
  unfold interpF interp
  simp only [fmulF_eq, faddF_eq, fsubF_eq, sinWeightsF_eq]

/-- `arm_sin_f32` computed in one pass entirely through `roundFast`
(extensionally equal, see `armSinEvalFast_eq`). -/
def armSinEvalFast (x : ℚ) : Option ℚ :=
  let u := fmulF x cInv2Pi
  match toInt32 u with
  | none => none
  | some n0 =>
    let n : ℤ := if x < 0 then n0 - 1 else n0
    if -(2 ^ 31) ≤ n then
      let p := fmulF 256 (fsubF u (i2fF n))
      match toUInt32AsInt32 p with
      | none => none
      | some i0 => interpF (clampIndex i0) (fsubF p (i2fF i0))
    else none

lemma armSinEvalFast_eq (x : ℚ) : armSinEvalFast x = arm_sin_f32 x := by
  rw [← armSinEval_eq]
  unfold armSinEvalFast armSinEval sin_u
  simp only [fmulF_eq, faddF_eq, fsubF_eq, i2fF_eq, interpF_eq]

example : (match armSinEvalFast (640 / 64 : ℚ) with
  | some y => decide (|y - sinTaylorQ (640 / 64)| ≤ 99 / 1000000)
  | none => false) = true := by decide
example : (List.range' 100 8).all (fun j =>
  match armSinEvalFast ((j : ℚ) / 64) with
  | some y => decide (|y - sinTaylorQ ((j : ℚ) / 64)| ≤ 99 / 1000000)
  | none => false) = true := by decide
